import Mathlib

/-!
Verification of the molecular-grid slice of the `grid` repository.

The Python source `src/grid/molgrid.py` (class `MolGrid`) is embedded
shallowly: numpy arrays become Lean lists over `ℚ`, in-place numpy
mutation becomes explicit state passing, and Python exceptions become
`Except` errors.  The Becke partition weights (`grid/becke.py`) and the
spline interpolation entry point (`grid/interpolate.py`) are not part of
the provided sources; they are modelled from the specification where
needed, as marked in their doc comments.
-/

/-- Cartesian point with rational coordinates. -/
abbrev Q3 : Type := ℚ × ℚ × ℚ

/-- Atomic grid as consumed by `MolGrid.__init__`: points, weights and a
center (`grid/basegrid.py` is external to the provided sources; only the
fields read by `molgrid.py` are modelled). -/
structure AtomicGrid where
  points : List Q3
  weights : List ℚ
  center : Q3
deriving DecidableEq, Repr

/-- Size of an atomic grid, the number of its points (`atomgrid.size`). -/
def AtomicGrid.size (a : AtomicGrid) : Nat := a.points.length

/-- Lightweight per-atom grid returned by `get_simple_atomic_grid` and by
`__getitem__` on a non-retaining `MolGrid`. -/
structure SimpleAtomicGrid where
  points : List Q3
  weights : List ℚ
  center : Q3
deriving DecidableEq, Repr

/-- Python exceptions raised by the embedded operations. -/
inductive GridError where
  | noArrays : GridError
  | typeErr : Nat → GridError
  | sizeErr : Nat → GridError
  | negIndex : Int → GridError
  | notStored : GridError
  | aimNotImplemented : String → GridError
  | aimSizeMismatch : GridError
  | aimTypeErr : GridError
  | indexErr : GridError
  | derivErr : Int → GridError
deriving DecidableEq, Repr

instance {ε α : Type} [DecidableEq ε] [DecidableEq α] : DecidableEq (Except ε α)
  | .ok a, .ok b =>
    if h : a = b then isTrue (by rw [h])
    else isFalse (fun c => by cases c; exact h rfl)
  | .ok _, .error _ => isFalse (fun c => Except.noConfusion c)
  | .error _, .ok _ => isFalse (fun c => Except.noConfusion c)
  | .error e, .error f =>
    if h : e = f then isTrue (by rw [h])
    else isFalse (fun c => by cases c; exact h rfl)

/-- The dynamically-typed `aim_weights` argument of `MolGrid.__init__`:
a string keyword, a numpy array, or a value of any other type. -/
inductive AimSpec where
  | str : String → AimSpec
  | arr : List ℚ → AimSpec
  | other : AimSpec
deriving DecidableEq, Repr

/-- A dynamically-typed argument of `MolGrid.integrate`: a numpy array
(already raveled to its flat value list) or a value of any other type. -/
inductive PyValue where
  | arr : List ℚ → PyValue
  | nonArray : PyValue
deriving DecidableEq, Repr

/-- Flat values of a `PyValue`, empty for a non-array. -/
def PyValue.vals : PyValue → List ℚ
  | .arr xs => xs
  | .nonArray => []

/-- Molecular grid state: the arrays stored by `MolGrid.__init__`.
`msize` is `self._size`, `coors` is `self._coors`. -/
structure MolGrid where
  points : List Q3
  weights : List ℚ
  aim_weights : List ℚ
  coors : List Q3
  indices : List Nat
  msize : Nat
  atomic_grids : Option (List AtomicGrid)
deriving DecidableEq, Repr

/-- Python / numpy integer indexing: a negative index wraps around once,
anything out of range raises `IndexError`. -/
def pyIdx (len : Nat) (i : Int) : Option Nat :=
  if 0 ≤ i then
    if i < (len : Int) then some i.toNat else none
  else
    if 0 ≤ (len : Int) + i then some ((len : Int) + i).toNat else none

/-- Element lookup with Python indexing semantics. -/
def pyGet {α : Type} (xs : List α) (i : Int) : Except GridError α :=
  match pyIdx xs.length i with
  | some k =>
    match xs.get? k with
    | some v => .ok v
    | none => .error .indexErr
  | none => .error .indexErr

/-- Python slice `xs[s:f]` for non-negative bounds: clamped, and empty
when `s ≥ f`. -/
def pySlice {α : Type} (xs : List α) (s f : Nat) : List α :=
  (xs.drop s).take (f - s)

/-- Overwrite the slice `xs[s : s+vals.length]` with `vals`, the effect of
an in-place numpy assignment through a view. -/
def writeSlice (xs : List ℚ) (s : Nat) (vals : List ℚ) : List ℚ :=
  xs.take s ++ vals ++ xs.drop (s + vals.length)

section Becke

/-- Modelled from the spec: `grid/becke.py` is not among the provided
sources.  The canonical Becke smoothing polynomial
`f(mu) = 1.5*mu - 0.5*mu^3`. -/
def beckeG (x : ℚ) : ℚ := (3 * x - x ^ 3) / 2

/-- Modelled from the spec: the smoothing polynomial applied three times
in succession, `s_ij = g(g(g(mu_ij)))`. -/
def beckeS (x : ℚ) : ℚ := beckeG (beckeG (beckeG x))

/-- Modelled from the spec: the 0/1-like step value `0.5 * (1 - s_ij)`. -/
def beckeStep (x : ℚ) : ℚ := (1 - beckeS x) / 2

/-- Modelled from the spec: the Bragg–Slater size-adjustment parameter
built from the ratio of covalent radii, clipped to `[-0.45, 0.45]` as in
Becke's scheme. -/
def beckeA (ri rj : ℚ) : ℚ :=
  let chi := ri / rj
  let u := (chi - 1) / (chi + 1)
  let a := u / (u ^ 2 - 1)
  max (-(9 / 20)) (min (9 / 20) a)

/-- Modelled from the spec: the size-adjusted elliptical coordinate
`mu + a * (1 - mu^2)`. -/
def beckeMuAdj (a mu : ℚ) : ℚ := mu + a * (1 - mu ^ 2)

/-- Modelled from the spec: the unnormalized cell function of atom `i` at
a point whose distance to atom `k`'s center is `d k`; `R j k` is the
inter-atomic distance and `radii` the covalent radii.  It is the product
over all `j ≠ i` of the step values. -/
def beckeCell (n : Nat) (d : Fin n → ℚ) (R : Fin n → Fin n → ℚ)
    (radii : Fin n → ℚ) (i : Fin n) : ℚ :=
  ∏ j ∈ Finset.univ.erase i,
    beckeStep (beckeMuAdj (beckeA (radii i) (radii j)) ((d i - d j) / R i j))

/-- Modelled from the spec: the normalization denominator, the sum of all
atoms' unnormalized cell functions. -/
def beckeTotal (n : Nat) (d : Fin n → ℚ) (R : Fin n → Fin n → ℚ)
    (radii : Fin n → ℚ) : ℚ :=
  ∑ i, beckeCell n d R radii i

/-- Modelled from the spec: the Becke weight of atom `i` at the point,
the cell function normalized by the sum over all atoms. -/
def beckeWeight (n : Nat) (d : Fin n → ℚ) (R : Fin n → Fin n → ℚ)
    (radii : Fin n → ℚ) (i : Fin n) : ℚ :=
  beckeCell n d R radii i / beckeTotal n d R radii

/-- Atom owning global point `p` under the boundary list `inds`:
the index `i` with `inds[i] ≤ p < inds[i+1]` for monotonic boundaries. -/
def ownerOf (inds : List Nat) (p : Nat) : Nat :=
  ((inds.drop 1).takeWhile (fun b => decide (b ≤ p))).length

/-- Modelled from the spec: `BeckeWeights.generate_becke_weights` applied
to the whole point set.  `aim_weights[p]` is the Becke weight, at point
`p`, of the atom owning `p` under the boundary partition.  The spec
requires the chunked evaluation performed by `MolGrid.__init__` to be
identical to this unchunked computation, so the chunk loop is collapsed.
Exact rational arithmetic replaces floating point, hence the Euclidean
distance is abstracted as the parameter `dist`. -/
def beckeAim (dist : Q3 → Q3 → ℚ) (radii : List ℚ) (coors : List Q3)
    (inds : List Nat) (pts : List Q3) : List ℚ :=
  pts.mapIdx (fun p x =>
    let n := coors.length
    if h : ownerOf inds p < n then
      beckeWeight n (fun i => dist x (coors.get i))
        (fun i j => dist (coors.get i) (coors.get j))
        (fun i => radii.getD i.1 0) ⟨ownerOf inds p, h⟩
    else 0)

end Becke

section MolGridOps

/-- Embedding of `MolGrid.__init__`.  `dist` abstracts the Euclidean
distance (exact arithmetic), `covRadii` abstracts the external covalent
radius table `get_cov_radii`.  The loop that copies each atomic grid's
points and weights into pre-allocated flat arrays is rendered as list
concatenation; the running boundary updates `indices[i+1] = indices[i] +
size_i` become a scan.  The three-way dispatch on the type of
`aim_weights` is kept exactly: an unsupported keyword raises
`NotImplementedError`, a wrongly sized array raises `ValueError`, any
other type raises `TypeError`.  The model assumes one atomic number per
atomic grid (the source's copy loop indexes `self._coors[i]` for every
grid) and represents the Becke branch for grids with at least one point
(for an empty point set the source's `np.concatenate` over zero chunks
raises); theorems about constructed grids carry these side conditions
where they matter. -/
def molGridInit (dist : Q3 → Q3 → ℚ) (covRadii : Nat → ℚ)
    (atomic_grids : List AtomicGrid) (numbers : List Nat)
    (aim : AimSpec) (store : Bool) : Except GridError MolGrid :=
  let radii := numbers.map covRadii
  let coors := atomic_grids.map (fun a => a.center)
  let inds := atomic_grids.scanl (fun acc a => acc + a.size) 0
  let size := (atomic_grids.map (fun a => a.size)).sum
  let pts := (atomic_grids.map (fun a => a.points)).flatten
  let wts := (atomic_grids.map (fun a => a.weights)).flatten
  let stored := if store then some atomic_grids else none
  match aim with
  | .str s =>
    if s = "becke" then
      .ok ⟨pts, wts, beckeAim dist radii coors inds pts, coors, inds, size, stored⟩
    else
      .error (.aimNotImplemented s)
  | .arr xs =>
    if xs.length = size then
      .ok ⟨pts, wts, xs, coors, inds, size, stored⟩
    else
      .error .aimSizeMismatch
  | .other => .error .aimTypeErr

/-- Embedding of `MolGrid.get_atomic_grid`: raises if the atomic grids
were not stored, then rejects negative indices, then Python list
indexing.  The returned state is unchanged (the method performs no
assignment). -/
def MolGrid.get_atomic_grid (g : MolGrid) (index : Int) :
    Except GridError (AtomicGrid × MolGrid) :=
  match g.atomic_grids with
  | none => .error .notStored
  | some ags =>
    if index < 0 then .error (.negIndex index)
    else do
      let a ← pyGet ags index
      .ok (a, g)

/-- Embedding of `MolGrid.get_aim_weights`: for a non-negative index,
returns `aim_weights[indices[index] : indices[index+1]]`; a negative
index raises `ValueError`.  No assignment is performed. -/
def MolGrid.get_aim_weights (g : MolGrid) (index : Int) :
    Except GridError (List ℚ × MolGrid) :=
  if 0 ≤ index then do
    let s ← pyGet g.indices index
    let f ← pyGet g.indices (index + 1)
    .ok (pySlice g.aim_weights s f, g)
  else .error (.negIndex index)

/-- Embedding of `MolGrid.get_simple_atomic_grid`.  In the source,
`wts = self.weights[s_ind:f_ind]` is a numpy view, so the in-place
`wts *= self.get_aim_weights(index)` overwrites the stored weights
slice; that write-back is rendered by returning the updated grid state
alongside the `SimpleAtomicGrid` built from the (post-write) view. -/
def MolGrid.get_simple_atomic_grid (g : MolGrid) (index : Int)
    (with_aim_wts : Bool) :
    Except GridError (SimpleAtomicGrid × MolGrid) := do
  let s ← pyGet g.indices index
  let f ← pyGet g.indices (index + 1)
  let pts := pySlice g.points s f
  let wts := pySlice g.weights s f
  if with_aim_wts then do
    let aw ← g.get_aim_weights index
    let wts2 := List.zipWith (fun w a => w * a) wts aw.1
    let c ← pyGet g.coors index
    .ok (⟨pts, wts2, c⟩, { g with weights := writeSlice g.weights s wts2 })
  else do
    let c ← pyGet g.coors index
    .ok (⟨pts, wts, c⟩, g)

/-- Check loop of `MolGrid.integrate`: each argument must be a numpy
array (`TypeError` otherwise) of total size equal to the grid size
(`ValueError` otherwise); on success returns the raveled value lists. -/
def checkArrays (size : Nat) : List PyValue → Nat →
    Except GridError (List (List ℚ))
  | [], _ => .ok []
  | .nonArray :: _, i => .error (.typeErr i)
  | .arr xs :: rest, i =>
    if xs.length = size then do
      let tail ← checkArrays size rest (i + 1)
      .ok (xs :: tail)
    else .error (.sizeErr i)

/-- Semantics of the `np.einsum("i,i,i,...", weights, aim_weights,
*arrays)` call: elementwise products accumulated, then summed. -/
def einsumList (w a : List ℚ) (fs : List (List ℚ)) : ℚ :=
  (fs.foldl (fun acc f => List.zipWith (fun x y => x * y) acc f)
    (List.zipWith (fun x y => x * y) w a)).sum

/-- Embedding of `MolGrid.integrate`: raises on an empty argument list,
then runs the per-argument checks, then evaluates the einsum.  No
assignment is performed, so the state is returned unchanged. -/
def MolGrid.integrate (g : MolGrid) (arrays : List PyValue) :
    Except GridError (ℚ × MolGrid) :=
  if arrays.length < 1 then .error .noArrays
  else do
    let fs ← checkArrays g.msize arrays 0
    .ok (einsumList g.weights g.aim_weights fs, g)

/-- Result of `MolGrid.__getitem__`: the stored `AtomicGrid` when grids
were retained, otherwise a synthesized `SimpleAtomicGrid`. -/
inductive GridItem where
  | stored : AtomicGrid → GridItem
  | synth : SimpleAtomicGrid → GridItem
deriving DecidableEq, Repr

/-- Points of a `__getitem__` result. -/
def GridItem.points : GridItem → List Q3
  | .stored a => a.points
  | .synth s => s.points

/-- Weights of a `__getitem__` result. -/
def GridItem.weights : GridItem → List ℚ
  | .stored a => a.weights
  | .synth s => s.weights

/-- Center of a `__getitem__` result. -/
def GridItem.center : GridItem → Q3
  | .stored a => a.center
  | .synth s => s.center

/-- Embedding of `MolGrid.__getitem__`: with no stored atomic grids it
synthesizes a per-atom view whose weights are
`weights[s:f] * aim_weights[s:f]` (a fresh array, no write-back);
otherwise it returns the stored atomic grid.  There is no negative-index
check in either branch: Python wraparound indexing applies. -/
def MolGrid.getitem (g : MolGrid) (index : Int) :
    Except GridError (GridItem × MolGrid) :=
  match g.atomic_grids with
  | none => do
    let s ← pyGet g.indices index
    let f ← pyGet g.indices (index + 1)
    let c ← pyGet g.coors index
    .ok (.synth ⟨pySlice g.points s f,
      List.zipWith (fun x y => x * y) (pySlice g.weights s f)
        (pySlice g.aim_weights s f), c⟩, g)
  | some ags => do
    let a ← pyGet ags index
    .ok (.stored a, g)

end MolGridOps

section Interp

/-- Modelled from the spec: `grid/interpolate.py` is not among the
provided sources (only its tests are).  A fitted spline collection: for
a radius or shell argument it yields the vector of per-`(l,m)` spline
coefficient values and first derivatives. -/
structure RadialSplineSet where
  coeffs : ℚ → List ℚ
  coeffsDeriv : ℚ → List ℚ

/-- Modelled from the spec: `interpolate(spline_set, r, theta, phi,
deriv)` reconstructs `sum of coefficient(r) * Y(theta, phi)` for
`deriv = 0`, the radial derivative for `deriv = 1`, and any other
derivative order is an invalid request that raises `ValueError`.
`sphHarm` abstracts the real-spherical-harmonic table at the given
angular coordinates. -/
def interpolate (spl : RadialSplineSet) (sphHarm : ℚ → ℚ → List ℚ)
    (r theta phi : ℚ) (deriv : Int) : Except GridError ℚ :=
  if deriv = 0 then
    .ok (List.zipWith (fun c y => c * y) (spl.coeffs r) (sphHarm theta phi)).sum
  else if deriv = 1 then
    .ok (List.zipWith (fun c y => c * y) (spl.coeffsDeriv r) (sphHarm theta phi)).sum
  else .error (.derivErr deriv)

end Interp

section BeckeLemmas

lemma beckeA_le (ri rj : ℚ) : beckeA ri rj ≤ 9 / 20 := by
  unfold beckeA
  exact max_le (by norm_num) (min_le_left _ _)

lemma neg_le_beckeA (ri rj : ℚ) : -(9 / 20) ≤ beckeA ri rj :=
  le_max_left _ _

lemma beckeG_le_one {x : ℚ} (h1 : -1 ≤ x) (h2 : x ≤ 1) : beckeG x ≤ 1 := by
  unfold beckeG
  nlinarith [mul_nonneg (sq_nonneg (x - 1)) (show (0:ℚ) ≤ x + 2 by linarith)]

lemma neg_one_le_beckeG {x : ℚ} (h1 : -1 ≤ x) (h2 : x ≤ 1) : -1 ≤ beckeG x := by
  unfold beckeG
  nlinarith [mul_nonneg (sq_nonneg (x + 1)) (show (0:ℚ) ≤ 2 - x by linarith)]

lemma beckeG_lt_one {x : ℚ} (h1 : -1 ≤ x) (h2 : x < 1) : beckeG x < 1 := by
  unfold beckeG
  have h3 : 0 < (1 - x) * (1 - x) * (x + 2) :=
    mul_pos (mul_pos (by linarith) (by linarith)) (by linarith)
  nlinarith [h3]

lemma beckeS_le_one {x : ℚ} (h1 : -1 ≤ x) (h2 : x ≤ 1) : beckeS x ≤ 1 := by
  unfold beckeS
  have g1a := neg_one_le_beckeG h1 h2
  have g1b := beckeG_le_one h1 h2
  have g2a := neg_one_le_beckeG g1a g1b
  have g2b := beckeG_le_one g1a g1b
  exact beckeG_le_one g2a g2b

lemma neg_one_le_beckeS {x : ℚ} (h1 : -1 ≤ x) (h2 : x ≤ 1) : -1 ≤ beckeS x := by
  unfold beckeS
  have g1a := neg_one_le_beckeG h1 h2
  have g1b := beckeG_le_one h1 h2
  have g2a := neg_one_le_beckeG g1a g1b
  have g2b := beckeG_le_one g1a g1b
  exact neg_one_le_beckeG g2a g2b

lemma beckeS_lt_one {x : ℚ} (h1 : -1 ≤ x) (h2 : x < 1) : beckeS x < 1 := by
  unfold beckeS
  have g1a := neg_one_le_beckeG h1 (le_of_lt h2)
  have g1b := beckeG_lt_one h1 h2
  have g2a := neg_one_le_beckeG g1a (le_of_lt g1b)
  have g2b := beckeG_lt_one g1a g1b
  exact beckeG_lt_one g2a g2b

lemma beckeStep_nonneg {x : ℚ} (h1 : -1 ≤ x) (h2 : x ≤ 1) : 0 ≤ beckeStep x := by
  have := beckeS_le_one h1 h2
  unfold beckeStep
  linarith

lemma beckeStep_le_one {x : ℚ} (h1 : -1 ≤ x) (h2 : x ≤ 1) : beckeStep x ≤ 1 := by
  have := neg_one_le_beckeS h1 h2
  unfold beckeStep
  linarith

lemma beckeStep_pos {x : ℚ} (h1 : -1 ≤ x) (h2 : x < 1) : 0 < beckeStep x := by
  have := beckeS_lt_one h1 h2
  unfold beckeStep
  linarith

lemma beckeMuAdj_le_one {a mu : ℚ} (ha1 : -(9 / 20) ≤ a) (ha2 : a ≤ 9 / 20)
    (h1 : -1 ≤ mu) (h2 : mu ≤ 1) : beckeMuAdj a mu ≤ 1 := by
  unfold beckeMuAdj
  have hp : (0:ℚ) ≤ 1 + mu := by linarith
  have h3 : a * (1 + mu) ≤ (9 / 20) * (1 + mu) := mul_le_mul_of_nonneg_right ha2 hp
  have h4 : (0:ℚ) ≤ 1 - a * (1 + mu) := by nlinarith
  nlinarith [mul_nonneg (show (0:ℚ) ≤ 1 - mu by linarith) h4]

lemma neg_one_le_beckeMuAdj {a mu : ℚ} (ha1 : -(9 / 20) ≤ a) (ha2 : a ≤ 9 / 20)
    (h1 : -1 ≤ mu) (h2 : mu ≤ 1) : -1 ≤ beckeMuAdj a mu := by
  unfold beckeMuAdj
  have hp : (0:ℚ) ≤ 1 - mu := by linarith
  have h3 : -(9 / 20) * (1 - mu) ≤ a * (1 - mu) := mul_le_mul_of_nonneg_right ha1 hp
  have h4 : (0:ℚ) ≤ 1 + a * (1 - mu) := by nlinarith
  nlinarith [mul_nonneg (show (0:ℚ) ≤ 1 + mu by linarith) h4]

lemma beckeMuAdj_lt_one {a mu : ℚ} (ha1 : -(9 / 20) ≤ a) (ha2 : a ≤ 9 / 20)
    (h1 : -1 ≤ mu) (h2 : mu ≤ 0) : beckeMuAdj a mu < 1 := by
  unfold beckeMuAdj
  have hp : (0:ℚ) ≤ 1 + mu := by linarith
  have h3 : a * (1 + mu) ≤ (9 / 20) * (1 + mu) := mul_le_mul_of_nonneg_right ha2 hp
  have h4 : (0:ℚ) < 1 - a * (1 + mu) := by nlinarith
  nlinarith [mul_pos (show (0:ℚ) < 1 - mu by linarith) h4]

end BeckeLemmas

section BeckePartition

variable {n : Nat} {d : Fin n → ℚ} {R : Fin n → Fin n → ℚ} {radii : Fin n → ℚ}

lemma becke_mu_mem (hRpos : ∀ i j : Fin n, i ≠ j → 0 < R i j)
    (htri : ∀ i j : Fin n, |d i - d j| ≤ R i j) {i j : Fin n} (hij : i ≠ j) :
    -1 ≤ (d i - d j) / R i j ∧ (d i - d j) / R i j ≤ 1 := by
  have hR := hRpos i j hij
  have habs := abs_le.mp (htri i j)
  constructor
  · exact (le_div_iff hR).mpr (by linarith)
  · exact (div_le_one hR).mpr habs.2

lemma beckeCell_nonneg (hRpos : ∀ i j : Fin n, i ≠ j → 0 < R i j)
    (htri : ∀ i j : Fin n, |d i - d j| ≤ R i j) (i : Fin n) :
    0 ≤ beckeCell n d R radii i := by
  unfold beckeCell
  refine Finset.prod_nonneg fun j hj => ?_
  have hji : j ≠ i := (Finset.mem_erase.mp hj).1
  obtain ⟨hm1, hm2⟩ := becke_mu_mem hRpos htri (Ne.symm hji)
  have ha1 := neg_le_beckeA (radii i) (radii j)
  have ha2 := beckeA_le (radii i) (radii j)
  exact beckeStep_nonneg (neg_one_le_beckeMuAdj ha1 ha2 hm1 hm2)
    (beckeMuAdj_le_one ha1 ha2 hm1 hm2)

lemma beckeCell_pos_of_min (hRpos : ∀ i j : Fin n, i ≠ j → 0 < R i j)
    (htri : ∀ i j : Fin n, |d i - d j| ≤ R i j) {k : Fin n}
    (hmin : ∀ j : Fin n, d k ≤ d j) : 0 < beckeCell n d R radii k := by
  unfold beckeCell
  refine Finset.prod_pos fun j hj => ?_
  have hji : j ≠ k := (Finset.mem_erase.mp hj).1
  obtain ⟨hm1, hm2⟩ := becke_mu_mem hRpos htri (Ne.symm hji)
  have ha1 := neg_le_beckeA (radii k) (radii j)
  have ha2 := beckeA_le (radii k) (radii j)
  have hmu0 : (d k - d j) / R k j ≤ 0 := by
    have hnum : d k - d j ≤ 0 := by linarith [hmin j]
    exact div_nonpos_of_nonpos_of_nonneg hnum (le_of_lt (hRpos k j (Ne.symm hji)))
  exact beckeStep_pos (neg_one_le_beckeMuAdj ha1 ha2 hm1 hm2)
    (beckeMuAdj_lt_one ha1 ha2 hm1 hmu0)

lemma beckeTotal_pos (hn : 0 < n) (hRpos : ∀ i j : Fin n, i ≠ j → 0 < R i j)
    (htri : ∀ i j : Fin n, |d i - d j| ≤ R i j) :
    0 < beckeTotal n d R radii := by
  have hne : (Finset.univ : Finset (Fin n)).Nonempty := ⟨⟨0, hn⟩, Finset.mem_univ _⟩
  obtain ⟨k, _, hk⟩ := Finset.exists_min_image Finset.univ d hne
  refine Finset.sum_pos' (fun i _ => beckeCell_nonneg hRpos htri i) ?_
  exact ⟨k, Finset.mem_univ k,
    beckeCell_pos_of_min hRpos htri (fun j => hk j (Finset.mem_univ j))⟩

lemma beckeStep_neg_one : beckeStep (-1) = 1 := by
  norm_num [beckeStep, beckeS, beckeG]

lemma beckeStep_one : beckeStep 1 = 0 := by
  norm_num [beckeStep, beckeS, beckeG]

lemma beckeMuAdj_neg_one (a : ℚ) : beckeMuAdj a (-1) = -1 := by
  unfold beckeMuAdj; ring

lemma beckeMuAdj_one (a : ℚ) : beckeMuAdj a 1 = 1 := by
  unfold beckeMuAdj; ring

lemma beckeCell_center_owner (hRpos : ∀ i j : Fin n, i ≠ j → 0 < R i j)
    (hRdiag : ∀ i : Fin n, R i i = 0) {j : Fin n} (hco : ∀ k : Fin n, d k = R j k) :
    beckeCell n d R radii j = 1 := by
  unfold beckeCell
  refine Finset.prod_eq_one fun k hk => ?_
  have hkj : k ≠ j := (Finset.mem_erase.mp hk).1
  have hRk : R j k ≠ 0 := ne_of_gt (hRpos j k (Ne.symm hkj))
  have hdj : d j = 0 := by rw [hco j, hRdiag j]
  have hmu : (d j - d k) / R j k = -1 := by
    rw [hdj, hco k, zero_sub, neg_div, div_self hRk]
  rw [hmu, beckeMuAdj_neg_one, beckeStep_neg_one]

lemma beckeCell_center_other (hRpos : ∀ i j : Fin n, i ≠ j → 0 < R i j)
    (hRsymm : ∀ i j : Fin n, R i j = R j i) (hRdiag : ∀ i : Fin n, R i i = 0)
    {j : Fin n} (hco : ∀ k : Fin n, d k = R j k) {i : Fin n} (hij : i ≠ j) :
    beckeCell n d R radii i = 0 := by
  unfold beckeCell
  refine Finset.prod_eq_zero (Finset.mem_erase.mpr ⟨Ne.symm hij, Finset.mem_univ j⟩) ?_
  have hRk : R i j ≠ 0 := ne_of_gt (hRpos i j hij)
  have hdj : d j = 0 := by rw [hco j, hRdiag j]
  have hmu : (d i - d j) / R i j = 1 := by
    rw [hdj, hco i, hRsymm j i, sub_zero, div_self hRk]
  rw [hmu, beckeMuAdj_one, beckeStep_one]

end BeckePartition

/-- C1: for every atom configuration with positive covalent radii and
distinct centers (rendered as: symmetric positive inter-center distances
`R`, per-atom point distances `d` obeying the triangle inequality), the
Becke weights used during `MolGrid` construction with
`aim_weights="becke"` sum to `1` over all atoms at every point; the
normalization denominator is strictly positive (so no division by zero,
hence no not-a-number, occurs); and at a point coincident with atomic
center `j` (where `d k = R j k` for every atom `k`) the owning atom gets
weight `1` and every other atom weight `0`. -/
theorem becke_partition_of_unity (n : Nat) (d : Fin n → ℚ)
    (R : Fin n → Fin n → ℚ) (radii : Fin n → ℚ) (hn : 0 < n)
    (hrad : ∀ i : Fin n, 0 < radii i)
    (hRpos : ∀ i j : Fin n, i ≠ j → 0 < R i j)
    (hRsymm : ∀ i j : Fin n, R i j = R j i)
    (hRdiag : ∀ i : Fin n, R i i = 0)
    (htri : ∀ i j : Fin n, d i - d j ≤ R i j) :
    (∑ i, beckeWeight n d R radii i) = 1 ∧
    0 < beckeTotal n d R radii ∧
    (∀ j : Fin n, (∀ k : Fin n, d k = R j k) →
      beckeWeight n d R radii j = 1 ∧
      ∀ i : Fin n, i ≠ j → beckeWeight n d R radii i = 0) := by
  have habs : ∀ i j : Fin n, |d i - d j| ≤ R i j := fun i j =>
    abs_sub_le_iff.mpr ⟨htri i j, hRsymm i j ▸ htri j i⟩
  have htot := @beckeTotal_pos n d R radii hn hRpos habs
  have htne : beckeTotal n d R radii ≠ 0 := ne_of_gt htot
  refine ⟨?_, htot, ?_⟩
  · unfold beckeWeight
    rw [← Finset.sum_div]
    exact div_self htne
  · intro j hco
    have hcj := @beckeCell_center_owner n d R radii hRpos hRdiag j hco
    have htot1 : beckeTotal n d R radii = 1 := by
      unfold beckeTotal
      rw [Finset.sum_eq_single j
        (fun i _ hij => beckeCell_center_other hRpos hRsymm hRdiag hco hij)
        (fun h => absurd (Finset.mem_univ j) h)]
      exact hcj
    refine ⟨?_, fun i hij => ?_⟩
    · unfold beckeWeight
      rw [htot1, hcj, div_one]
    · unfold beckeWeight
      rw [beckeCell_center_other hRpos hRsymm hRdiag hco hij, zero_div]

/-- Distance profile of a point sitting exactly at the first of two atomic
centers one unit apart. -/
def exD : Fin 2 → ℚ := fun i => if i.1 = 0 then 0 else 1

/-- Inter-center distances of two atoms one unit apart. -/
def exR : Fin 2 → Fin 2 → ℚ := fun i j => if i = j then 0 else 1

/-- Unit covalent radii for the two-atom example. -/
def exRad : Fin 2 → ℚ := fun _ => 1

theorem becke_partition_of_unity_witness :
    (∑ i, beckeWeight 2 exD exR exRad i) = 1 ∧
    0 < beckeTotal 2 exD exR exRad ∧
    (∀ j : Fin 2, (∀ k : Fin 2, exD k = exR j k) →
      beckeWeight 2 exD exR exRad j = 1 ∧
      ∀ i : Fin 2, i ≠ j → beckeWeight 2 exD exR exRad i = 0) :=
  becke_partition_of_unity 2 exD exR exRad (by decide)
    (by with_unfolding_all decide) (by with_unfolding_all decide)
    (by with_unfolding_all decide) (by with_unfolding_all decide)
    (by with_unfolding_all decide)

/-- C9: for every spline set and every radius, angular coordinates and
harmonic table, calling `interpolate` with a derivative order outside
`{0,1}` fails with a `ValueError` rather than returning a value. -/
theorem interpolate_rejects_bad_deriv (spl : RadialSplineSet)
    (sphHarm : ℚ → ℚ → List ℚ) (r theta phi : ℚ) (deriv : Int)
    (h0 : deriv ≠ 0) (h1 : deriv ≠ 1) :
    interpolate spl sphHarm r theta phi deriv = .error (.derivErr deriv) := by
  simp [interpolate, h0, h1]

theorem interpolate_rejects_bad_deriv_witness :
    interpolate ⟨fun _ => [], fun _ => []⟩ (fun _ _ => []) 1 0 0 4 =
      .error (.derivErr 4) ∧
    interpolate ⟨fun _ => [], fun _ => []⟩ (fun _ _ => []) 1 0 0 (-1) =
      .error (.derivErr (-1)) :=
  ⟨interpolate_rejects_bad_deriv ⟨fun _ => [], fun _ => []⟩ (fun _ _ => []) 1 0 0 4
      (by decide) (by decide),
    interpolate_rejects_bad_deriv ⟨fun _ => [], fun _ => []⟩ (fun _ _ => []) 1 0 0 (-1)
      (by decide) (by decide)⟩

section IntegrateLemmas

lemma list_sum_eq_range (xs : List ℚ) :
    xs.sum = ∑ p ∈ Finset.range xs.length, xs.getD p 0 := by
  induction xs with
  | nil => simp
  | cons x xs ih =>
    rw [List.sum_cons, List.length_cons, Finset.sum_range_succ', ih]
    simp [add_comm]

lemma zipWith_mul_getD : ∀ (b f : List ℚ) (p : Nat), p < b.length → p < f.length →
    (List.zipWith (fun x y => x * y) b f).getD p 0 = b.getD p 0 * f.getD p 0
  | [], _, p, hb, _ => by simp at hb
  | _ :: _, [], p, _, hf => by simp at hf
  | x :: b, y :: f, 0, _, _ => by simp
  | x :: b, y :: f, p + 1, hb, hf => by
    simpa using zipWith_mul_getD b f p (by simpa using hb) (by simpa using hf)

lemma einsum_fold (n : Nat) : ∀ (fs : List (List ℚ)) (base : List ℚ),
    base.length = n → (∀ f ∈ fs, f.length = n) →
    (fs.foldl (fun acc f => List.zipWith (fun x y => x * y) acc f) base).sum =
      ∑ p ∈ Finset.range n, base.getD p 0 * (fs.map (fun f => f.getD p 0)).prod
  | [], base, hb, _ => by
    simp only [List.foldl_nil, List.map_nil, List.prod_nil, mul_one]
    rw [list_sum_eq_range, hb]
  | f :: fs, base, hb, hfs => by
    rw [List.foldl_cons]
    have hzl : (List.zipWith (fun x y => x * y) base f).length = n := by
      rw [List.length_zipWith, hb, hfs f (List.mem_cons_self f fs), Nat.min_self]
    rw [einsum_fold n fs _ hzl (fun f hf => hfs f (List.mem_cons_of_mem _ hf))]
    refine Finset.sum_congr rfl fun p hp => ?_
    have hpn := Finset.mem_range.mp hp
    rw [zipWith_mul_getD base f p (by rw [hb]; exact hpn)
      (by rw [hfs f (List.mem_cons_self f fs)]; exact hpn)]
    simp [mul_assoc]

lemma checkArrays_ok (size : Nat) : ∀ (arrays : List PyValue) (i : Nat),
    (∀ a ∈ arrays, ∃ xs, a = .arr xs ∧ xs.length = size) →
    checkArrays size arrays i = .ok (arrays.map PyValue.vals)
  | [], _, _ => rfl
  | a :: rest, i, hgood => by
    obtain ⟨xs, rfl, hlen⟩ := hgood a (List.mem_cons_self a rest)
    have ih := checkArrays_ok size rest (i + 1)
      (fun b hb => hgood b (List.mem_cons_of_mem _ hb))
    simp [checkArrays, hlen, ih, PyValue.vals]
    rfl

end IntegrateLemmas

/-- Success case of `integrate`, shared by several results below. -/
lemma integrate_ok_spec (g : MolGrid) (arrays : List PyValue)
    (hw : g.weights.length = g.msize) (ha : g.aim_weights.length = g.msize)
    (hne : arrays ≠ [])
    (hgood : ∀ a ∈ arrays, ∃ xs, a = .arr xs ∧ xs.length = g.msize) :
    g.integrate arrays = .ok (∑ p ∈ Finset.range g.msize,
      g.weights.getD p 0 * g.aim_weights.getD p 0 *
        (arrays.map (fun a => a.vals.getD p 0)).prod, g) := by
  unfold MolGrid.integrate
  have hlen : ¬ arrays.length < 1 := by
    have := List.length_pos.mpr hne
    omega
  rw [if_neg hlen, checkArrays_ok g.msize arrays 0 hgood]
  show Except.ok (einsumList g.weights g.aim_weights (arrays.map PyValue.vals), g) = _
  unfold einsumList
  have hbase : (List.zipWith (fun x y => x * y) g.weights g.aim_weights).length
      = g.msize := by
    rw [List.length_zipWith, hw, ha, Nat.min_self]
  rw [einsum_fold g.msize (arrays.map PyValue.vals) _ hbase
    (fun f hf => by
      obtain ⟨a, haa, rfl⟩ := List.mem_map.mp hf
      obtain ⟨xs, rfl, hl⟩ := hgood a haa
      exact hl)]
  congr 1
  refine congrArg₂ Prod.mk (Finset.sum_congr rfl fun p hp => ?_) rfl
  have hpn := Finset.mem_range.mp hp
  rw [zipWith_mul_getD g.weights g.aim_weights p (by rw [hw]; exact hpn)
    (by rw [ha]; exact hpn), List.map_map]
  rfl

/-- C2: for every (well-formed) `MolGrid` and every non-empty list of
numpy arrays each of total element count equal to the grid size,
`integrate` returns the scalar `sum over p of weights[p] * aim_weights[p]
* product over k of fields[k][p]`, and leaves the grid unchanged. -/
theorem integrate_formula (g : MolGrid) (arrays : List PyValue)
    (hw : g.weights.length = g.msize) (ha : g.aim_weights.length = g.msize)
    (hne : arrays ≠ [])
    (hgood : ∀ a ∈ arrays, ∃ xs, a = .arr xs ∧ xs.length = g.msize) :
    g.integrate arrays = .ok (∑ p ∈ Finset.range g.msize,
      g.weights.getD p 0 * g.aim_weights.getD p 0 *
        (arrays.map (fun a => a.vals.getD p 0)).prod, g) :=
  integrate_ok_spec g arrays hw ha hne hgood

/-- Two-atom, one-point-per-atom example grid (custom aim weights), as
`MolGrid.__init__` assembles it. -/
def mg2 : MolGrid :=
  ⟨[(0,0,0), (1,0,0)], [1, 2], [1/2, 1/3], [(0,0,0), (1,0,0)], [0, 1, 2], 2, none⟩

theorem integrate_formula_witness :
    mg2.integrate [.arr [5, 7]] = .ok (∑ p ∈ Finset.range mg2.msize,
      mg2.weights.getD p 0 * mg2.aim_weights.getD p 0 *
        ([PyValue.arr [5, 7]].map (fun a => a.vals.getD p 0)).prod, mg2) :=
  integrate_formula mg2 [.arr [5, 7]] rfl rfl (by decide)
    (fun a h => by rw [List.mem_singleton] at h; exact ⟨[5, 7], h, rfl⟩)

section AssemblyLemmas

lemma molGridInit_str_becke (dist : Q3 → Q3 → ℚ) (covRadii : Nat → ℚ)
    (gs : List AtomicGrid) (numbers : List Nat) (store : Bool) :
    molGridInit dist covRadii gs numbers (.str "becke") store =
      .ok ⟨(gs.map (fun a => a.points)).flatten,
        (gs.map (fun a => a.weights)).flatten,
        beckeAim dist (numbers.map covRadii) (gs.map (fun a => a.center))
          (gs.scanl (fun acc a => acc + a.size) 0)
          ((gs.map (fun a => a.points)).flatten),
        gs.map (fun a => a.center), gs.scanl (fun acc a => acc + a.size) 0,
        (gs.map (fun a => a.size)).sum, if store then some gs else none⟩ := by
  unfold molGridInit
  dsimp only
  rw [if_pos rfl]

lemma molGridInit_str_bad (dist : Q3 → Q3 → ℚ) (covRadii : Nat → ℚ)
    (gs : List AtomicGrid) (numbers : List Nat) (store : Bool) {s : String}
    (hs : s ≠ "becke") :
    molGridInit dist covRadii gs numbers (.str s) store =
      .error (.aimNotImplemented s) := by
  unfold molGridInit
  dsimp only
  rw [if_neg hs]

lemma molGridInit_arr_good (dist : Q3 → Q3 → ℚ) (covRadii : Nat → ℚ)
    (gs : List AtomicGrid) (numbers : List Nat) (store : Bool) {xs : List ℚ}
    (hx : xs.length = (gs.map (fun a => a.size)).sum) :
    molGridInit dist covRadii gs numbers (.arr xs) store =
      .ok ⟨(gs.map (fun a => a.points)).flatten,
        (gs.map (fun a => a.weights)).flatten, xs,
        gs.map (fun a => a.center), gs.scanl (fun acc a => acc + a.size) 0,
        (gs.map (fun a => a.size)).sum, if store then some gs else none⟩ := by
  unfold molGridInit
  dsimp only
  rw [if_pos hx]

lemma molGridInit_arr_bad (dist : Q3 → Q3 → ℚ) (covRadii : Nat → ℚ)
    (gs : List AtomicGrid) (numbers : List Nat) (store : Bool) {xs : List ℚ}
    (hx : xs.length ≠ (gs.map (fun a => a.size)).sum) :
    molGridInit dist covRadii gs numbers (.arr xs) store =
      .error .aimSizeMismatch := by
  unfold molGridInit
  dsimp only
  rw [if_neg hx]

lemma molGridInit_other (dist : Q3 → Q3 → ℚ) (covRadii : Nat → ℚ)
    (gs : List AtomicGrid) (numbers : List Nat) (store : Bool) :
    molGridInit dist covRadii gs numbers .other store = .error .aimTypeErr := by
  unfold molGridInit
  dsimp only

lemma molGridInit_ok {dist : Q3 → Q3 → ℚ} {covRadii : Nat → ℚ}
    {gs : List AtomicGrid} {numbers : List Nat} {aim : AimSpec} {store : Bool}
    {g : MolGrid} (h : molGridInit dist covRadii gs numbers aim store = .ok g) :
    g.points = (gs.map (fun a => a.points)).flatten ∧
    g.weights = (gs.map (fun a => a.weights)).flatten ∧
    g.coors = gs.map (fun a => a.center) ∧
    g.indices = gs.scanl (fun acc a => acc + a.size) 0 ∧
    g.msize = (gs.map (fun a => a.size)).sum ∧
    g.atomic_grids = (if store then some gs else none) := by
  rcases aim with s | xs | _
  · by_cases hs : s = "becke"
    · subst hs
      rw [molGridInit_str_becke] at h
      injection h with h
      subst h
      exact ⟨rfl, rfl, rfl, rfl, rfl, rfl⟩
    · rw [molGridInit_str_bad dist covRadii gs numbers store hs] at h
      cases h
  · by_cases hx : xs.length = (gs.map (fun a => a.size)).sum
    · rw [molGridInit_arr_good dist covRadii gs numbers store hx] at h
      injection h with h
      subst h
      exact ⟨rfl, rfl, rfl, rfl, rfl, rfl⟩
    · rw [molGridInit_arr_bad dist covRadii gs numbers store hx] at h
      cases h
  · rw [molGridInit_other] at h
    cases h

lemma scanl_size_getD (gs : List AtomicGrid) : ∀ (acc i : Nat), i ≤ gs.length →
    (gs.scanl (fun a b => a + b.size) acc).getD i 0 =
      acc + ((gs.take i).map (fun a => a.size)).sum := by
  induction gs with
  | nil =>
    intro acc i hi
    cases Nat.le_zero.mp hi
    simp [List.scanl]
  | cons a gs ih =>
    intro acc i hi
    cases i with
    | zero => simp [List.scanl]
    | succ i =>
      rw [List.scanl_cons]
      simp only [List.singleton_append, List.getD_cons_succ]
      rw [ih (acc + a.size) i (by simpa using hi)]
      simp only [List.take_succ_cons, List.map_cons, List.sum_cons]
      omega

lemma flatten_slice {α : Type} (f : AtomicGrid → List α) :
    ∀ (gs : List AtomicGrid), (∀ a ∈ gs, (f a).length = a.size) →
    ∀ (i : Nat) (hi : i < gs.length),
    pySlice ((gs.map f).flatten) (((gs.take i).map (fun a => a.size)).sum)
        (((gs.take (i+1)).map (fun a => a.size)).sum) = f (gs.get ⟨i, hi⟩)
  | [], _, i, hi => absurd hi (by simp)
  | a :: gs, hl, 0, hi => by
    simp only [List.take_zero, List.map_nil, List.sum_nil, List.take_succ_cons,
      List.map_cons, List.sum_cons, List.flatten_cons, List.take_nil]
    unfold pySlice
    rw [List.drop_zero, Nat.sub_zero]
    simp only [List.sum_nil, Nat.add_zero]
    exact List.take_left' (hl a (List.mem_cons_self a gs))
  | a :: gs, hl, i + 1, hi => by
    have hfa : (f a).length = a.size := hl a (List.mem_cons_self a gs)
    simp only [List.take_succ_cons, List.map_cons, List.sum_cons, List.flatten_cons]
    unfold pySlice
    rw [← hfa, List.drop_append, Nat.add_sub_add_left]
    have := flatten_slice f gs (fun b hb => hl b (List.mem_cons_of_mem _ hb)) i
      (by simpa using hi)
    unfold pySlice at this
    exact this

lemma take_sizes_mono (gs : List AtomicGrid) {i j : Nat} (hij : i ≤ j) :
    ((gs.take i).map (fun a => a.size)).sum ≤
      ((gs.take j).map (fun a => a.size)).sum := by
  rw [show j = i + (j - i) by omega, List.take_add, List.map_append,
    List.sum_append]
  exact Nat.le_add_right _ _

end AssemblyLemmas

/-- Layout of a constructed `MolGrid`: boundary list, monotonicity and
per-atom slices, shared by several results below. -/
lemma molGridInit_layout (dist : Q3 → Q3 → ℚ) (covRadii : Nat → ℚ)
    (gs : List AtomicGrid) (numbers : List Nat) (aim : AimSpec) (store : Bool)
    (g : MolGrid)
    (hwf : ∀ a ∈ gs, a.weights.length = a.points.length)
    (h : molGridInit dist covRadii gs numbers aim store = .ok g) :
    g.indices.getD 0 0 = 0 ∧
    g.indices.length = gs.length + 1 ∧
    (∀ (i : Nat) (hi : i < gs.length),
      g.indices.getD (i + 1) 0 = g.indices.getD i 0 + (gs.get ⟨i, hi⟩).size) ∧
    (∀ i j : Nat, i ≤ j → j ≤ gs.length →
      g.indices.getD i 0 ≤ g.indices.getD j 0) ∧
    g.indices.getD gs.length 0 = g.msize ∧
    (∀ (i : Nat) (hi : i < gs.length),
      pySlice g.points (g.indices.getD i 0) (g.indices.getD (i + 1) 0) =
        (gs.get ⟨i, hi⟩).points ∧
      pySlice g.weights (g.indices.getD i 0) (g.indices.getD (i + 1) 0) =
        (gs.get ⟨i, hi⟩).weights ∧
      g.coors.getD i (0, 0, 0) = (gs.get ⟨i, hi⟩).center) := by
  obtain ⟨hp, hw, hc, hix, hm, _⟩ := molGridInit_ok h
  have hcum : ∀ k, k ≤ gs.length →
      g.indices.getD k 0 = ((gs.take k).map (fun a => a.size)).sum := by
    intro k hk
    rw [hix, scanl_size_getD gs 0 k hk, Nat.zero_add]
  have hinc : ∀ (i : Nat) (hL : i < gs.length),
      ((gs.take (i + 1)).map (fun a => a.size)).sum =
        ((gs.take i).map (fun a => a.size)).sum + (gs.get ⟨i, hL⟩).size := by
    intro i hL
    rw [List.take_succ, List.map_append, List.sum_append,
      List.getElem?_eq_getElem hL]
    rfl
  refine ⟨?_, ?_, ?_, ?_, ?_, ?_⟩
  · rw [hcum 0 (Nat.zero_le _)]
    rfl
  · rw [hix, List.length_scanl]
  · intro i hL
    rw [hcum i (le_of_lt hL), hcum (i + 1) hL, hinc i hL]
  · intro i j hij hjL
    rw [hcum i (le_trans hij hjL), hcum j hjL]
    exact take_sizes_mono gs hij
  · rw [hcum gs.length (le_refl _), List.take_length, hm]
  · intro i hL
    refine ⟨?_, ?_, ?_⟩
    · rw [hp, hcum i (le_of_lt hL), hcum (i + 1) hL]
      exact flatten_slice (fun a => a.points) gs (fun a _ => rfl) i hL
    · rw [hw, hcum i (le_of_lt hL), hcum (i + 1) hL]
      exact flatten_slice (fun a => a.weights) gs
        (fun a ha => by rw [hwf a ha]; rfl) i hL
    · rw [hc, List.getD_eq_getElem?_getD, List.getElem?_map,
        List.getElem?_eq_getElem hL]
      rfl

/-- C3: a `MolGrid` built from a sequence of atomic grids satisfies
`indices[0] = 0`, `indices[i+1] = indices[i] + size_i` (hence `indices`
is monotonic and `indices[N]` equals the total point count `msize`), the
point and weight slices `[indices[i] : indices[i+1]]` reproduce the
`i`-th atomic grid's points and weights, and `centers[i]` is its
center. -/
theorem molgrid_assembly (dist : Q3 → Q3 → ℚ) (covRadii : Nat → ℚ)
    (gs : List AtomicGrid) (numbers : List Nat) (aim : AimSpec) (store : Bool)
    (g : MolGrid)
    (hwf : ∀ a ∈ gs, a.weights.length = a.points.length)
    (hlen : numbers.length = gs.length)
    (h : molGridInit dist covRadii gs numbers aim store = .ok g) :
    g.indices.getD 0 0 = 0 ∧
    g.indices.length = gs.length + 1 ∧
    (∀ (i : Nat) (hi : i < gs.length),
      g.indices.getD (i + 1) 0 = g.indices.getD i 0 + (gs.get ⟨i, hi⟩).size) ∧
    (∀ i j : Nat, i ≤ j → j ≤ gs.length →
      g.indices.getD i 0 ≤ g.indices.getD j 0) ∧
    g.indices.getD gs.length 0 = g.msize ∧
    (∀ (i : Nat) (hi : i < gs.length),
      pySlice g.points (g.indices.getD i 0) (g.indices.getD (i + 1) 0) =
        (gs.get ⟨i, hi⟩).points ∧
      pySlice g.weights (g.indices.getD i 0) (g.indices.getD (i + 1) 0) =
        (gs.get ⟨i, hi⟩).weights ∧
      g.coors.getD i (0, 0, 0) = (gs.get ⟨i, hi⟩).center) :=
  molGridInit_layout dist covRadii gs numbers aim store g hwf h

/-- Taxicab distance: an exact stand-in for the Euclidean metric in the
concrete examples (all example points lie on a coordinate axis). -/
def exDist (a b : Q3) : ℚ :=
  abs (a.1 - b.1) + abs (a.2.1 - b.2.1) + abs (a.2.2 - b.2.2)

/-- Covalent radius table assigning radius one to every element. -/
def exTbl (_ : Nat) : ℚ := 1

/-- One-point atomic grid centered at the origin. -/
def exG1 : AtomicGrid := ⟨[(0, 0, 0)], [1], (0, 0, 0)⟩

/-- One-point atomic grid centered at `(1,0,0)`. -/
def exG2 : AtomicGrid := ⟨[(1, 0, 0)], [2], (1, 0, 0)⟩

theorem molgrid_assembly_witness :
    mg2.indices.getD 0 0 = 0 ∧
    mg2.indices.length = [exG1, exG2].length + 1 ∧
    (∀ (i : Nat) (hi : i < [exG1, exG2].length),
      mg2.indices.getD (i + 1) 0 =
        mg2.indices.getD i 0 + ([exG1, exG2].get ⟨i, hi⟩).size) ∧
    (∀ i j : Nat, i ≤ j → j ≤ [exG1, exG2].length →
      mg2.indices.getD i 0 ≤ mg2.indices.getD j 0) ∧
    mg2.indices.getD [exG1, exG2].length 0 = mg2.msize ∧
    (∀ (i : Nat) (hi : i < [exG1, exG2].length),
      pySlice mg2.points (mg2.indices.getD i 0) (mg2.indices.getD (i + 1) 0) =
        ([exG1, exG2].get ⟨i, hi⟩).points ∧
      pySlice mg2.weights (mg2.indices.getD i 0) (mg2.indices.getD (i + 1) 0) =
        ([exG1, exG2].get ⟨i, hi⟩).weights ∧
      mg2.coors.getD i (0, 0, 0) = ([exG1, exG2].get ⟨i, hi⟩).center) :=
  molgrid_assembly exDist exTbl [exG1, exG2] [1, 1] (.arr [1/2, 1/3]) false mg2
    (by decide) (by decide) (by with_unfolding_all decide)

/-- C8: `MolGrid` construction fails (no grid value is produced) for a
keyword other than `"becke"` (`NotImplementedError`), for an array whose
size differs from the total point count (`ValueError`), and for any
other `aim_weights` type (`TypeError`); with `"becke"` it succeeds on a
grid with at least one point and stores the computed Becke weights, and
with a correctly sized array it succeeds and stores that array as
given. -/
theorem molgrid_aim_config (dist : Q3 → Q3 → ℚ) (covRadii : Nat → ℚ)
    (gs : List AtomicGrid) (numbers : List Nat) (store : Bool)
    (hlen : numbers.length = gs.length) :
    (∀ s : String, s ≠ "becke" →
      molGridInit dist covRadii gs numbers (.str s) store =
        .error (.aimNotImplemented s)) ∧
    (∀ xs : List ℚ, xs.length ≠ (gs.map (fun a => a.size)).sum →
      molGridInit dist covRadii gs numbers (.arr xs) store =
        .error .aimSizeMismatch) ∧
    (molGridInit dist covRadii gs numbers .other store = .error .aimTypeErr) ∧
    (0 < (gs.map (fun a => a.size)).sum →
      ∃ g : MolGrid, molGridInit dist covRadii gs numbers (.str "becke") store = .ok g ∧
      g.aim_weights = beckeAim dist (numbers.map covRadii)
        (gs.map (fun a => a.center)) (gs.scanl (fun acc a => acc + a.size) 0)
        ((gs.map (fun a => a.points)).flatten)) ∧
    (∀ xs : List ℚ, xs.length = (gs.map (fun a => a.size)).sum →
      ∃ g : MolGrid, molGridInit dist covRadii gs numbers (.arr xs) store = .ok g ∧
        g.aim_weights = xs) :=
  ⟨fun s hs => molGridInit_str_bad dist covRadii gs numbers store hs,
   fun xs hx => molGridInit_arr_bad dist covRadii gs numbers store hx,
   molGridInit_other dist covRadii gs numbers store,
   fun _ => ⟨_, molGridInit_str_becke dist covRadii gs numbers store, rfl⟩,
   fun xs hx => ⟨_, molGridInit_arr_good dist covRadii gs numbers store hx, rfl⟩⟩

theorem molgrid_aim_config_witness :
    (∀ s : String, s ≠ "becke" →
      molGridInit exDist exTbl [exG1, exG2] [1, 1] (.str s) false =
        .error (.aimNotImplemented s)) ∧
    (∀ xs : List ℚ, xs.length ≠ ([exG1, exG2].map (fun a => a.size)).sum →
      molGridInit exDist exTbl [exG1, exG2] [1, 1] (.arr xs) false =
        .error .aimSizeMismatch) ∧
    (molGridInit exDist exTbl [exG1, exG2] [1, 1] .other false =
      .error .aimTypeErr) ∧
    (0 < ([exG1, exG2].map (fun a => a.size)).sum →
      ∃ g : MolGrid,
      molGridInit exDist exTbl [exG1, exG2] [1, 1] (.str "becke") false = .ok g ∧
      g.aim_weights = beckeAim exDist ([1, 1].map exTbl)
        ([exG1, exG2].map (fun a => a.center))
        ([exG1, exG2].scanl (fun acc a => acc + a.size) 0)
        (([exG1, exG2].map (fun a => a.points)).flatten)) ∧
    (∀ xs : List ℚ, xs.length = ([exG1, exG2].map (fun a => a.size)).sum →
      ∃ g : MolGrid,
        molGridInit exDist exTbl [exG1, exG2] [1, 1] (.arr xs) false = .ok g ∧
        g.aim_weights = xs) :=
  molgrid_aim_config exDist exTbl [exG1, exG2] [1, 1] false (by decide)

section PyGetLemmas

lemma pyGet_nat {α : Type} (xs : List α) (i : Nat) (hi : i < xs.length) :
    pyGet xs (i : Int) = .ok (xs.get ⟨i, hi⟩) := by
  unfold pyGet pyIdx
  rw [if_pos (Int.natCast_nonneg i), if_pos (by exact_mod_cast hi)]
  simp only [Int.toNat_natCast]
  rw [List.get?_eq_get hi]

lemma pyGet_neg_one_ok {α : Type} (xs : List α) (h : xs ≠ []) :
    ∃ v, pyGet xs (-1) = .ok v := by
  have hl : 0 < xs.length := List.length_pos.mpr h
  unfold pyGet pyIdx
  rw [if_neg (by norm_num), if_pos (by omega)]
  have hk : ((xs.length : Int) + (-1)).toNat = xs.length - 1 := by omega
  rw [hk]
  dsimp only
  rw [List.get?_eq_get (by omega)]
  exact ⟨_, rfl⟩

lemma getD_eq_get {α : Type} (xs : List α) (d : α) (k : Nat)
    (hk : k < xs.length) : xs.getD k d = xs.get ⟨k, hk⟩ := by
  rw [List.getD_eq_getElem?_getD, List.getElem?_eq_getElem hk]
  rfl

end PyGetLemmas

section StoreLemmas

lemma molGridInit_store_fields {dist : Q3 → Q3 → ℚ} {covRadii : Nat → ℚ}
    {gs : List AtomicGrid} {numbers : List Nat} {aim : AimSpec}
    {store1 store2 : Bool} {g1 g2 : MolGrid}
    (h1 : molGridInit dist covRadii gs numbers aim store1 = .ok g1)
    (h2 : molGridInit dist covRadii gs numbers aim store2 = .ok g2) :
    g1.points = g2.points ∧ g1.weights = g2.weights ∧
    g1.aim_weights = g2.aim_weights ∧ g1.coors = g2.coors ∧
    g1.indices = g2.indices ∧ g1.msize = g2.msize := by
  rcases aim with s | xs | _
  · by_cases hs : s = "becke"
    · subst hs
      rw [molGridInit_str_becke] at h1 h2
      injection h1 with h1
      injection h2 with h2
      subst h1
      subst h2
      exact ⟨rfl, rfl, rfl, rfl, rfl, rfl⟩
    · rw [molGridInit_str_bad dist covRadii gs numbers store1 hs] at h1
      cases h1
  · by_cases hx : xs.length = (gs.map (fun a => a.size)).sum
    · rw [molGridInit_arr_good dist covRadii gs numbers store1 hx] at h1
      rw [molGridInit_arr_good dist covRadii gs numbers store2 hx] at h2
      injection h1 with h1
      injection h2 with h2
      subst h1
      subst h2
      exact ⟨rfl, rfl, rfl, rfl, rfl, rfl⟩
    · rw [molGridInit_arr_bad dist covRadii gs numbers store1 hx] at h1
      cases h1
  · rw [molGridInit_other] at h1
    cases h1

end StoreLemmas

/-- C5: for the same atomic grids, atomic numbers and aim-weight
specification, indexing a retaining (`store=True`) and a non-retaining
(`store=False`) `MolGrid` with `[]` yields equivalent results: the same
points, the same center, the same aim weights, and the synthesized
view's weights equal the stored grid's local weights multiplied by that
atom's aim weights. -/
theorem getitem_store_equiv (dist : Q3 → Q3 → ℚ) (covRadii : Nat → ℚ)
    (gs : List AtomicGrid) (numbers : List Nat) (aim : AimSpec)
    (g1 g2 : MolGrid)
    (hwf : ∀ a ∈ gs, a.weights.length = a.points.length)
    (hlen : numbers.length = gs.length)
    (h1 : molGridInit dist covRadii gs numbers aim true = .ok g1)
    (h2 : molGridInit dist covRadii gs numbers aim false = .ok g2)
    (i : Nat) (hi : i < gs.length) :
    g1.aim_weights = g2.aim_weights ∧
    ∃ a sg, g1.getitem (i : Int) = .ok (.stored a, g1) ∧
      g2.getitem (i : Int) = .ok (.synth sg, g2) ∧
      sg.points = a.points ∧ sg.center = a.center ∧
      sg.weights = List.zipWith (fun w aw => w * aw) a.weights
        (pySlice g2.aim_weights (g2.indices.getD i 0)
          (g2.indices.getD (i + 1) 0)) := by
  have haim := (molGridInit_store_fields h1 h2).2.2.1
  obtain ⟨hp1, hw1, hc1, hx1, hm1, hs1⟩ := molGridInit_ok h1
  obtain ⟨hp2, hw2, hc2, hx2, hm2, hs2⟩ := molGridInit_ok h2
  rw [if_pos rfl] at hs1
  rw [if_neg Bool.false_ne_true] at hs2
  have hilen : g2.indices.length = gs.length + 1 := by
    rw [hx2, List.length_scanl]
  have hclen : g2.coors.length = gs.length := by
    rw [hc2, List.length_map]
  have hi1 : i < g2.indices.length := by omega
  have hi2 : i + 1 < g2.indices.length := by omega
  have hic : i < g2.coors.length := by omega
  have hd1 : g2.indices.getD i 0 = g2.indices.get ⟨i, hi1⟩ :=
    getD_eq_get _ _ _ hi1
  have hd2 : g2.indices.getD (i + 1) 0 = g2.indices.get ⟨i + 1, hi2⟩ :=
    getD_eq_get _ _ _ hi2
  have hdc : g2.coors.getD i (0, 0, 0) = g2.coors.get ⟨i, hic⟩ :=
    getD_eq_get _ _ _ hic
  have e1 : g1.getitem (i : Int) = .ok (.stored (gs.get ⟨i, hi⟩), g1) := by
    unfold MolGrid.getitem
    rw [hs1]
    dsimp only
    rw [pyGet_nat gs i hi]
    rfl
  have e2 : g2.getitem (i : Int) = .ok (.synth
      ⟨pySlice g2.points (g2.indices.getD i 0) (g2.indices.getD (i + 1) 0),
        List.zipWith (fun x y => x * y)
          (pySlice g2.weights (g2.indices.getD i 0) (g2.indices.getD (i + 1) 0))
          (pySlice g2.aim_weights (g2.indices.getD i 0)
            (g2.indices.getD (i + 1) 0)),
        g2.coors.getD i (0, 0, 0)⟩, g2) := by
    unfold MolGrid.getitem
    rw [hs2]
    dsimp only
    rw [show ((i : Int) + 1) = ((i + 1 : Nat) : Int) by push_cast; ring]
    rw [pyGet_nat g2.indices i hi1, pyGet_nat g2.indices (i + 1) hi2,
      pyGet_nat g2.coors i hic, hd1, hd2, hdc]
    rfl
  obtain ⟨-, -, -, -, -, hsl⟩ :=
    molGridInit_layout dist covRadii gs numbers aim false g2 hwf h2
  obtain ⟨hps, hws, hcs⟩ := hsl i hi
  exact ⟨haim, gs.get ⟨i, hi⟩, _, e1, e2, hps, hcs, by rw [hws]⟩

section StateEffectLemmas

lemma get_atomic_grid_pres {g : MolGrid} {i : Int} {a : AtomicGrid}
    {g2 : MolGrid} (h : g.get_atomic_grid i = .ok (a, g2)) : g2 = g := by
  unfold MolGrid.get_atomic_grid at h
  cases hag : g.atomic_grids with
  | none => rw [hag] at h; cases h
  | some ags =>
    rw [hag] at h
    dsimp only at h
    split at h
    · cases h
    · cases hp : pyGet ags i with
      | error e => rw [hp] at h; cases h
      | ok v => rw [hp] at h; cases h; rfl

lemma get_aim_weights_pres {g : MolGrid} {i : Int} {w : List ℚ}
    {g2 : MolGrid} (h : g.get_aim_weights i = .ok (w, g2)) : g2 = g := by
  unfold MolGrid.get_aim_weights at h
  split at h
  · cases hs : pyGet g.indices i with
    | error e => rw [hs] at h; cases h
    | ok s =>
      rw [hs] at h
      cases hf : pyGet g.indices (i + 1) with
      | error e => rw [hf] at h; cases h
      | ok f => rw [hf] at h; cases h; rfl
  · cases h

lemma integrate_pres {g : MolGrid} {arrays : List PyValue} {v : ℚ}
    {g2 : MolGrid} (h : g.integrate arrays = .ok (v, g2)) : g2 = g := by
  unfold MolGrid.integrate at h
  split at h
  · cases h
  · cases hc : checkArrays g.msize arrays 0 with
    | error e => rw [hc] at h; cases h
    | ok fs => rw [hc] at h; cases h; rfl

lemma getitem_pres {g : MolGrid} {i : Int} {it : GridItem}
    {g2 : MolGrid} (h : g.getitem i = .ok (it, g2)) : g2 = g := by
  unfold MolGrid.getitem at h
  cases hag : g.atomic_grids with
  | none =>
    rw [hag] at h
    dsimp only at h
    cases hs : pyGet g.indices i with
    | error e => rw [hs] at h; cases h
    | ok s =>
      rw [hs] at h
      cases hf : pyGet g.indices (i + 1) with
      | error e => rw [hf] at h; cases h
      | ok f =>
        rw [hf] at h
        cases hc : pyGet g.coors i with
        | error e => rw [hc] at h; cases h
        | ok c => rw [hc] at h; cases h; rfl
  | some ags =>
    rw [hag] at h
    dsimp only at h
    cases hp : pyGet ags i with
    | error e => rw [hp] at h; cases h
    | ok a => rw [hp] at h; cases h; rfl

lemma get_simple_false_pres {g : MolGrid} {i : Int} {sg : SimpleAtomicGrid}
    {g2 : MolGrid} (h : g.get_simple_atomic_grid i false = .ok (sg, g2)) :
    g2 = g := by
  unfold MolGrid.get_simple_atomic_grid at h
  cases hs : pyGet g.indices i with
  | error e => rw [hs] at h; cases h
  | ok s =>
    rw [hs] at h
    cases hf : pyGet g.indices (i + 1) with
    | error e => rw [hf] at h; cases h
    | ok f =>
      rw [hf] at h
      simp only [Bool.false_eq_true, if_false] at h
      cases hc : pyGet g.coors i with
      | error e => rw [hc] at h; cases h
      | ok c => rw [hc] at h; cases h; rfl

lemma get_aim_weights_nat_spec (g : MolGrid) (i : Nat)
    (hi1 : i < g.indices.length) (hi2 : i + 1 < g.indices.length) :
    g.get_aim_weights (i : Int) = .ok
      (pySlice g.aim_weights (g.indices.get ⟨i, hi1⟩)
        (g.indices.get ⟨i + 1, hi2⟩), g) := by
  unfold MolGrid.get_aim_weights
  rw [if_pos (Int.natCast_nonneg i)]
  rw [show ((i : Int) + 1) = ((i + 1 : Nat) : Int) by push_cast; ring]
  rw [pyGet_nat g.indices i hi1, pyGet_nat g.indices (i + 1) hi2]
  rfl

lemma get_simple_true_spec (g : MolGrid) (i : Nat)
    (hi1 : i < g.indices.length) (hi2 : i + 1 < g.indices.length)
    (hic : i < g.coors.length) :
    g.get_simple_atomic_grid (i : Int) true = .ok
      (⟨pySlice g.points (g.indices.get ⟨i, hi1⟩) (g.indices.get ⟨i + 1, hi2⟩),
        List.zipWith (fun w aw => w * aw)
          (pySlice g.weights (g.indices.get ⟨i, hi1⟩)
            (g.indices.get ⟨i + 1, hi2⟩))
          (pySlice g.aim_weights (g.indices.get ⟨i, hi1⟩)
            (g.indices.get ⟨i + 1, hi2⟩)),
        g.coors.get ⟨i, hic⟩⟩,
      ⟨g.points,
        writeSlice g.weights (g.indices.get ⟨i, hi1⟩)
          (List.zipWith (fun w aw => w * aw)
            (pySlice g.weights (g.indices.get ⟨i, hi1⟩)
              (g.indices.get ⟨i + 1, hi2⟩))
            (pySlice g.aim_weights (g.indices.get ⟨i, hi1⟩)
              (g.indices.get ⟨i + 1, hi2⟩))),
        g.aim_weights, g.coors, g.indices, g.msize, g.atomic_grids⟩) := by
  unfold MolGrid.get_simple_atomic_grid
  rw [show ((i : Int) + 1) = ((i + 1 : Nat) : Int) by push_cast; ring]
  rw [pyGet_nat g.indices i hi1, pyGet_nat g.indices (i + 1) hi2,
    get_aim_weights_nat_spec g i hi1 hi2, pyGet_nat g.coors i hic]
  rfl

lemma get_simple_false_spec (g : MolGrid) (i : Nat)
    (hi1 : i < g.indices.length) (hi2 : i + 1 < g.indices.length)
    (hic : i < g.coors.length) :
    g.get_simple_atomic_grid (i : Int) false = .ok
      (⟨pySlice g.points (g.indices.get ⟨i, hi1⟩) (g.indices.get ⟨i + 1, hi2⟩),
        pySlice g.weights (g.indices.get ⟨i, hi1⟩) (g.indices.get ⟨i + 1, hi2⟩),
        g.coors.get ⟨i, hic⟩⟩, g) := by
  unfold MolGrid.get_simple_atomic_grid
  rw [show ((i : Int) + 1) = ((i + 1 : Nat) : Int) by push_cast; ring]
  rw [pyGet_nat g.indices i hi1, pyGet_nat g.indices (i + 1) hi2,
    pyGet_nat g.coors i hic]
  rfl

end StateEffectLemmas

/-- C4 is refuted as stated (see the counterexample): this is the amended
statement.  The accessors `get_atomic_grid`, `get_aim_weights`,
`integrate`, `[]` indexing and `get_simple_atomic_grid` with
`with_aim_wts=False` leave the grid's stored state unchanged whenever
they succeed; `get_simple_atomic_grid` with `with_aim_wts=True` is the
one exception: through the numpy view it overwrites the stored weights
slice of the requested atom with that slice multiplied elementwise by
the atom's aim weights. -/
theorem accessor_state_effects (g : MolGrid) :
    (∀ (i : Int) (a : AtomicGrid) (g2 : MolGrid),
      g.get_atomic_grid i = .ok (a, g2) → g2 = g) ∧
    (∀ (i : Int) (w : List ℚ) (g2 : MolGrid),
      g.get_aim_weights i = .ok (w, g2) → g2 = g) ∧
    (∀ (arrays : List PyValue) (v : ℚ) (g2 : MolGrid),
      g.integrate arrays = .ok (v, g2) → g2 = g) ∧
    (∀ (i : Int) (it : GridItem) (g2 : MolGrid),
      g.getitem i = .ok (it, g2) → g2 = g) ∧
    (∀ (i : Int) (sg : SimpleAtomicGrid) (g2 : MolGrid),
      g.get_simple_atomic_grid i false = .ok (sg, g2) → g2 = g) ∧
    (∀ (i : Nat) (hi1 : i < g.indices.length) (hi2 : i + 1 < g.indices.length)
      (hic : i < g.coors.length),
      g.get_simple_atomic_grid (i : Int) true = .ok
        (⟨pySlice g.points (g.indices.get ⟨i, hi1⟩) (g.indices.get ⟨i + 1, hi2⟩),
          List.zipWith (fun w aw => w * aw)
            (pySlice g.weights (g.indices.get ⟨i, hi1⟩)
              (g.indices.get ⟨i + 1, hi2⟩))
            (pySlice g.aim_weights (g.indices.get ⟨i, hi1⟩)
              (g.indices.get ⟨i + 1, hi2⟩)),
          g.coors.get ⟨i, hic⟩⟩,
        ⟨g.points,
          writeSlice g.weights (g.indices.get ⟨i, hi1⟩)
            (List.zipWith (fun w aw => w * aw)
              (pySlice g.weights (g.indices.get ⟨i, hi1⟩)
                (g.indices.get ⟨i + 1, hi2⟩))
              (pySlice g.aim_weights (g.indices.get ⟨i, hi1⟩)
                (g.indices.get ⟨i + 1, hi2⟩))),
          g.aim_weights, g.coors, g.indices, g.msize, g.atomic_grids⟩)) :=
  ⟨fun _ _ _ h => get_atomic_grid_pres h,
   fun _ _ _ h => get_aim_weights_pres h,
   fun _ _ _ h => integrate_pres h,
   fun _ _ _ h => getitem_pres h,
   fun _ _ _ h => get_simple_false_pres h,
   fun i hi1 hi2 hic => get_simple_true_spec g i hi1 hi2 hic⟩

/-- C4 as stated is false: on a concrete two-atom grid, one call to
`get_simple_atomic_grid(0)` (default `with_aim_wts=True`) changes the
stored weights array, so the state does not equal its value at
construction. -/
theorem accessor_no_mutation_cex :
    ((mg2.get_simple_atomic_grid 0 true).toOption.map Prod.snd) ≠ some mg2 := by
  with_unfolding_all decide

/-- C7 is refuted as stated (see the counterexample): this is the amended
statement.  `get_atomic_grid` (on a retaining grid) and
`get_aim_weights` reject every negative index with a `ValueError` and no
side effects, and `get_simple_atomic_grid` with `with_aim_wts=True`
fails on every negative index through its internal aim-weights lookup;
but `[]` indexing performs no negative-index check (Python wraparound
indexing applies, e.g. `-1` succeeds), and neither does
`get_simple_atomic_grid` with `with_aim_wts=False` (at `-1` it returns
an empty-slice view).  `get_atomic_grid` on a non-retaining MolGrid
fails regardless of the index value. -/
theorem index_validation (g : MolGrid) :
    (∀ (ags : List AtomicGrid), g.atomic_grids = some ags →
      ∀ i : Int, i < 0 → g.get_atomic_grid i = .error (.negIndex i)) ∧
    (∀ i : Int, i < 0 → g.get_aim_weights i = .error (.negIndex i)) ∧
    (∀ i : Int, i < 0 → ∃ e, g.get_simple_atomic_grid i true = .error e) ∧
    (g.atomic_grids = none →
      ∀ i : Int, g.get_atomic_grid i = .error .notStored) ∧
    (g.indices ≠ [] → g.coors ≠ [] →
      ∃ sg, g.get_simple_atomic_grid (-1) false = .ok (sg, g)) ∧
    (∀ (ags : List AtomicGrid), g.atomic_grids = some ags → ags ≠ [] →
      ∃ a, g.getitem (-1) = .ok (.stored a, g)) ∧
    (g.atomic_grids = none → g.indices ≠ [] → g.coors ≠ [] →
      ∃ sg, g.getitem (-1) = .ok (.synth sg, g)) := by
  have hga_neg : ∀ i : Int, i < 0 →
      g.get_aim_weights i = .error (.negIndex i) := by
    intro i hi
    unfold MolGrid.get_aim_weights
    rw [if_neg (not_le.mpr hi)]
  refine ⟨?_, hga_neg, ?_, ?_, ?_, ?_, ?_⟩
  · intro ags hag i hi
    unfold MolGrid.get_atomic_grid
    rw [hag]
    dsimp only
    rw [if_pos hi]
  · intro i hi
    cases hs : pyGet g.indices i with
    | error e =>
      refine ⟨e, ?_⟩
      unfold MolGrid.get_simple_atomic_grid
      rw [hs]
      rfl
    | ok s =>
      cases hf : pyGet g.indices (i + 1) with
      | error e =>
        refine ⟨e, ?_⟩
        unfold MolGrid.get_simple_atomic_grid
        rw [hs, hf]
        rfl
      | ok f =>
        refine ⟨.negIndex i, ?_⟩
        unfold MolGrid.get_simple_atomic_grid
        rw [hs, hf, hga_neg i hi]
        rfl
  · intro hag i
    unfold MolGrid.get_atomic_grid
    rw [hag]
  · intro hixne hcne
    have hixpos : 0 < g.indices.length := List.length_pos.mpr hixne
    obtain ⟨s, hs⟩ := pyGet_neg_one_ok g.indices hixne
    obtain ⟨c, hc⟩ := pyGet_neg_one_ok g.coors hcne
    refine ⟨⟨pySlice g.points s (g.indices.get ⟨0, hixpos⟩),
      pySlice g.weights s (g.indices.get ⟨0, hixpos⟩), c⟩, ?_⟩
    unfold MolGrid.get_simple_atomic_grid
    rw [hs, show (-1 : Int) + 1 = ((0 : Nat) : Int) by norm_num,
      pyGet_nat g.indices 0 hixpos, hc]
    rfl
  · intro ags hag hne
    obtain ⟨a, ha⟩ := pyGet_neg_one_ok ags hne
    refine ⟨a, ?_⟩
    unfold MolGrid.getitem
    rw [hag]
    dsimp only
    rw [ha]
    rfl
  · intro hag hixne hcne
    have hixpos : 0 < g.indices.length := List.length_pos.mpr hixne
    obtain ⟨s, hs⟩ := pyGet_neg_one_ok g.indices hixne
    obtain ⟨c, hc⟩ := pyGet_neg_one_ok g.coors hcne
    refine ⟨⟨pySlice g.points s (g.indices.get ⟨0, hixpos⟩),
      List.zipWith (fun x y => x * y)
        (pySlice g.weights s (g.indices.get ⟨0, hixpos⟩))
        (pySlice g.aim_weights s (g.indices.get ⟨0, hixpos⟩)), c⟩, ?_⟩
    unfold MolGrid.getitem
    rw [hag]
    dsimp only
    rw [hs, show (-1 : Int) + 1 = ((0 : Nat) : Int) by norm_num,
      pyGet_nat g.indices 0 hixpos, hc]
    rfl

/-- C7 as stated is false: on a concrete non-retaining two-atom grid,
`[]` indexing with `-1` succeeds (Python wraparound yields the last
center and an empty slice) instead of failing with a usage error. -/
theorem index_validation_cex :
    mg2.getitem (-1) = .ok (.synth ⟨[], [], (1, 0, 0)⟩, mg2) := by
  with_unfolding_all decide

section IntegrateErrLemmas

lemma checkArrays_first_nonarray (size : Nat) : ∀ (pre rest : List PyValue) (i : Nat),
    (∀ a ∈ pre, ∃ xs, a = .arr xs ∧ xs.length = size) →
    checkArrays size (pre ++ .nonArray :: rest) i =
      .error (.typeErr (i + pre.length))
  | [], rest, i, _ => by simp [checkArrays]
  | a :: pre, rest, i, hgood => by
    obtain ⟨xs, rfl, hlen⟩ := hgood a (List.mem_cons_self a pre)
    have ih := checkArrays_first_nonarray size pre rest (i + 1)
      (fun b hb => hgood b (List.mem_cons_of_mem _ hb))
    show checkArrays size (.arr xs :: (pre ++ .nonArray :: rest)) i = _
    unfold checkArrays
    rw [if_pos hlen, ih]
    rw [show i + 1 + pre.length = i + (pre.length + 1) from by omega]
    rfl

lemma checkArrays_first_badsize (size : Nat) : ∀ (pre rest : List PyValue)
    (xs : List ℚ) (i : Nat),
    (∀ a ∈ pre, ∃ ys, a = .arr ys ∧ ys.length = size) →
    xs.length ≠ size →
    checkArrays size (pre ++ .arr xs :: rest) i =
      .error (.sizeErr (i + pre.length))
  | [], rest, xs, i, _, hx => by simp [checkArrays, hx]
  | a :: pre, rest, xs, i, hgood, hx => by
    obtain ⟨ys, rfl, hlen⟩ := hgood a (List.mem_cons_self a pre)
    have ih := checkArrays_first_badsize size pre rest xs (i + 1)
      (fun b hb => hgood b (List.mem_cons_of_mem _ hb)) hx
    show checkArrays size (.arr ys :: (pre ++ .arr xs :: rest)) i = _
    unfold checkArrays
    rw [if_pos hlen, ih]
    rw [show i + 1 + pre.length = i + (pre.length + 1) from by omega]
    rfl

lemma checkArrays_err_of_bad (size : Nat) : ∀ (arrays : List PyValue) (i : Nat),
    (∃ a ∈ arrays, ¬ ∃ xs, a = .arr xs ∧ xs.length = size) →
    ∃ e, checkArrays size arrays i = .error e
  | [], _, h => by
    obtain ⟨a, ha, -⟩ := h
    exact absurd ha (List.not_mem_nil a)
  | a :: rest, i, h => by
    cases a with
    | nonArray => exact ⟨.typeErr i, rfl⟩
    | arr xs =>
      by_cases hx : xs.length = size
      · obtain ⟨b, hb, hbad⟩ := h
        rcases List.mem_cons.mp hb with rfl | hbrest
        · exact absurd ⟨xs, rfl, hx⟩ hbad
        · obtain ⟨e, he⟩ := checkArrays_err_of_bad size rest (i + 1)
            ⟨b, hbrest, hbad⟩
          refine ⟨e, ?_⟩
          show checkArrays size (.arr xs :: rest) i = _
          unfold checkArrays
          rw [if_pos hx, he]
          rfl
      · exact ⟨.sizeErr i, by unfold checkArrays; rw [if_neg hx]⟩

end IntegrateErrLemmas

/-- C6: `integrate` fails with `ValueError` on an empty argument list,
with `TypeError` at the first non-array argument, with `ValueError` at
the first array argument whose total size differs from the grid's point
count, and more generally with some error whenever any argument is bad;
in each failure case no value is produced (the `Except` is an error, so
the grid state is untouched). -/
theorem integrate_errors (g : MolGrid) :
    g.integrate [] = .error .noArrays ∧
    (∀ (pre rest : List PyValue),
      (∀ a ∈ pre, ∃ xs, a = .arr xs ∧ xs.length = g.msize) →
      g.integrate (pre ++ .nonArray :: rest) = .error (.typeErr pre.length)) ∧
    (∀ (pre rest : List PyValue) (xs : List ℚ),
      (∀ a ∈ pre, ∃ ys, a = .arr ys ∧ ys.length = g.msize) →
      xs.length ≠ g.msize →
      g.integrate (pre ++ .arr xs :: rest) = .error (.sizeErr pre.length)) ∧
    (∀ arrays : List PyValue,
      (∃ a ∈ arrays, ¬ ∃ xs, a = .arr xs ∧ xs.length = g.msize) →
      ∃ e, g.integrate arrays = .error e) := by
  refine ⟨rfl, ?_, ?_, ?_⟩
  · intro pre rest hgood
    unfold MolGrid.integrate
    rw [if_neg (by simp)]
    rw [checkArrays_first_nonarray g.msize pre rest 0 hgood, Nat.zero_add]
    rfl
  · intro pre rest xs hgood hx
    unfold MolGrid.integrate
    rw [if_neg (by simp)]
    rw [checkArrays_first_badsize g.msize pre rest xs 0 hgood hx, Nat.zero_add]
    rfl
  · intro arrays h
    obtain ⟨e, he⟩ := checkArrays_err_of_bad g.msize arrays 0 h
    refine ⟨e, ?_⟩
    unfold MolGrid.integrate
    obtain ⟨a, ha, -⟩ := h
    rw [if_neg (by have := List.length_pos.mpr (List.ne_nil_of_mem ha); omega),
      he]
    rfl

section WriteBack

/-- Repeated invocation of `get_simple_atomic_grid(index)` with
`with_aim_wts=True`, threading the (mutated) grid state; a failing call
leaves the state as it was. -/
def iterSimpleTrue (g : MolGrid) (i : Int) : Nat → MolGrid
  | 0 => g
  | k + 1 =>
    match (iterSimpleTrue g i k).get_simple_atomic_grid i true with
    | .ok (_, g2) => g2
    | .error _ => iterSimpleTrue g i k

lemma get_simple_true_spec2 (g : MolGrid) (i s f : Nat)
    (hi1 : i < g.indices.length) (hi2 : i + 1 < g.indices.length)
    (hic : i < g.coors.length)
    (hs : g.indices.getD i 0 = s) (hf : g.indices.getD (i + 1) 0 = f) :
    g.get_simple_atomic_grid (i : Int) true = .ok
      (⟨pySlice g.points s f,
        List.zipWith (fun w aw => w * aw) (pySlice g.weights s f)
          (pySlice g.aim_weights s f),
        g.coors.get ⟨i, hic⟩⟩,
      ⟨g.points,
        writeSlice g.weights s
          (List.zipWith (fun w aw => w * aw) (pySlice g.weights s f)
            (pySlice g.aim_weights s f)),
        g.aim_weights, g.coors, g.indices, g.msize, g.atomic_grids⟩) := by
  have h0 := get_simple_true_spec g i hi1 hi2 hic
  rw [getD_eq_get _ _ _ hi1] at hs
  rw [getD_eq_get _ _ _ hi2] at hf
  rw [hs, hf] at h0
  exact h0

lemma pySlice_length {α : Type} (l : List α) (s f : Nat) :
    (pySlice l s f).length = min (f - s) (l.length - s) := by
  unfold pySlice
  rw [List.length_take, List.length_drop]

lemma pySlice_concat {α : Type} (pre mid post : List α) (s f : Nat)
    (hpre : pre.length = s) (hmid : mid.length = f - s) :
    pySlice (pre ++ (mid ++ post)) s f = mid := by
  unfold pySlice
  rw [List.drop_left' hpre, List.take_left' hmid]

lemma slice_restore {α : Type} (l : List α) (s f : Nat) (hsf : s ≤ f) :
    l.take s ++ (pySlice l s f ++ l.drop f) = l := by
  unfold pySlice
  have h1 : (l.drop s).drop (f - s) = l.drop f := by
    rw [List.drop_drop]
    congr 1
    omega
  rw [← h1, List.take_append_drop, List.take_append_drop]

lemma zipWith_pow_zero : ∀ (ws as : List ℚ), as.length = ws.length →
    List.zipWith (fun w a => w * a ^ (0 : Nat)) ws as = ws
  | [], [], _ => rfl
  | [], _ :: _, h => by simp at h
  | _ :: _, [], h => by simp at h
  | w :: ws, a :: as, h => by
    simp only [List.zipWith_cons_cons]
    rw [zipWith_pow_zero ws as (by simpa using h)]
    norm_num

lemma zipWith_mul_pow (k : Nat) : ∀ (ws as : List ℚ),
    List.zipWith (fun x y => x * y)
      (List.zipWith (fun w a => w * a ^ k) ws as) as =
      List.zipWith (fun w a => w * a ^ (k + 1)) ws as
  | [], as => by cases as <;> rfl
  | _ :: _, [] => rfl
  | w :: ws, a :: as => by
    simp only [List.zipWith_cons_cons]
    rw [zipWith_mul_pow k ws as]
    congr 1
    ring

end WriteBack

lemma iterSimpleTrue_invariant (g : MolGrid) (i s f : Nat)
    (hi1 : i < g.indices.length) (hi2 : i + 1 < g.indices.length)
    (hic : i < g.coors.length)
    (hs : g.indices.getD i 0 = s) (hf : g.indices.getD (i + 1) 0 = f)
    (hsf : s ≤ f) (hfL : f ≤ g.weights.length)
    (haL : g.aim_weights.length = g.weights.length) :
    ∀ k : Nat,
      (iterSimpleTrue g (i : Int) k).points = g.points ∧
      (iterSimpleTrue g (i : Int) k).aim_weights = g.aim_weights ∧
      (iterSimpleTrue g (i : Int) k).coors = g.coors ∧
      (iterSimpleTrue g (i : Int) k).indices = g.indices ∧
      (iterSimpleTrue g (i : Int) k).msize = g.msize ∧
      (iterSimpleTrue g (i : Int) k).weights =
        g.weights.take s ++
          (List.zipWith (fun w a => w * a ^ k) (pySlice g.weights s f)
            (pySlice g.aim_weights s f) ++ g.weights.drop f) := by
  have hsL : s ≤ g.weights.length := le_trans hsf hfL
  have htakelen : (g.weights.take s).length = s := by
    rw [List.length_take]
    omega
  have hwslen : (pySlice g.weights s f).length = f - s := by
    rw [pySlice_length]
    omega
  have haslen : (pySlice g.aim_weights s f).length = f - s := by
    rw [pySlice_length, haL]
    omega
  have hziplen : ∀ m : Nat,
      (List.zipWith (fun w a => w * a ^ m) (pySlice g.weights s f)
        (pySlice g.aim_weights s f)).length = f - s := by
    intro m
    rw [List.length_zipWith, hwslen, haslen, Nat.min_self]
  intro k
  induction k with
  | zero =>
    refine ⟨rfl, rfl, rfl, rfl, rfl, ?_⟩
    rw [zipWith_pow_zero _ _ (by rw [hwslen, haslen]),
      slice_restore g.weights s f hsf]
    rfl
  | succ k ih =>
    obtain ⟨hpk, hak, hck, hxk, hmk, hwk⟩ := ih
    have hi1k : i < (iterSimpleTrue g (i : Int) k).indices.length := by
      rw [hxk]; exact hi1
    have hi2k : i + 1 < (iterSimpleTrue g (i : Int) k).indices.length := by
      rw [hxk]; exact hi2
    have hick : i < (iterSimpleTrue g (i : Int) k).coors.length := by
      rw [hck]; exact hic
    have hstep := get_simple_true_spec2 (iterSimpleTrue g (i : Int) k) i s f
      hi1k hi2k hick (by rw [hxk]; exact hs) (by rw [hxk]; exact hf)
    have e : iterSimpleTrue g (i : Int) (k + 1) =
        ⟨(iterSimpleTrue g (i : Int) k).points,
          writeSlice (iterSimpleTrue g (i : Int) k).weights s
            (List.zipWith (fun w aw => w * aw)
              (pySlice (iterSimpleTrue g (i : Int) k).weights s f)
              (pySlice (iterSimpleTrue g (i : Int) k).aim_weights s f)),
          (iterSimpleTrue g (i : Int) k).aim_weights,
          (iterSimpleTrue g (i : Int) k).coors,
          (iterSimpleTrue g (i : Int) k).indices,
          (iterSimpleTrue g (i : Int) k).msize,
          (iterSimpleTrue g (i : Int) k).atomic_grids⟩ := by
      show (match (iterSimpleTrue g (i : Int) k).get_simple_atomic_grid
          (i : Int) true with
        | .ok (_, g2) => g2
        | .error _ => iterSimpleTrue g (i : Int) k) = _
      rw [hstep]
    rw [e]
    refine ⟨hpk, hak, hck, hxk, hmk, ?_⟩
    show writeSlice (iterSimpleTrue g (i : Int) k).weights s
        (List.zipWith (fun w aw => w * aw)
          (pySlice (iterSimpleTrue g (i : Int) k).weights s f)
          (pySlice (iterSimpleTrue g (i : Int) k).aim_weights s f)) = _
    rw [hak, hwk,
      pySlice_concat (g.weights.take s) _ (g.weights.drop f) s f htakelen
        (hziplen k),
      zipWith_mul_pow k]
    unfold writeSlice
    rw [List.take_left' htakelen, hziplen (k + 1),
      show s + (f - s) = f from by omega, ← List.append_assoc,
      List.drop_left' (by rw [List.length_append, htakelen, hziplen k]; omega)]
    exact List.append_assoc _ _ _

/-- C10: `get_simple_atomic_grid(index, with_aim_wts=True)` writes back
into the stored weights array through the numpy view: after `k` calls
the atom's weights slice holds the original weights times the aim
weights to the `k`-th power, the `k+1`-st call returns exactly that
slice at power `k+1` (the returned array is the written-back view), and
every subsequent `integrate` call uses the modified weights. -/
theorem simple_grid_aliasing_writeback (g : MolGrid) (i s f : Nat)
    (hi1 : i < g.indices.length) (hi2 : i + 1 < g.indices.length)
    (hic : i < g.coors.length)
    (hs : g.indices.getD i 0 = s) (hf : g.indices.getD (i + 1) 0 = f)
    (hsf : s ≤ f) (hfL : f ≤ g.weights.length)
    (haL : g.aim_weights.length = g.weights.length)
    (hwm : g.weights.length = g.msize) :
    ∀ k : Nat,
      (iterSimpleTrue g (i : Int) k).weights =
        g.weights.take s ++
          (List.zipWith (fun w a => w * a ^ k) (pySlice g.weights s f)
            (pySlice g.aim_weights s f) ++ g.weights.drop f) ∧
      (∃ sg : SimpleAtomicGrid,
        (iterSimpleTrue g (i : Int) k).get_simple_atomic_grid (i : Int) true =
          .ok (sg, iterSimpleTrue g (i : Int) (k + 1)) ∧
        sg.weights = List.zipWith (fun w a => w * a ^ (k + 1))
          (pySlice g.weights s f) (pySlice g.aim_weights s f)) ∧
      (∀ arrays : List PyValue, arrays ≠ [] →
        (∀ a ∈ arrays, ∃ xs, a = .arr xs ∧ xs.length = g.msize) →
        (iterSimpleTrue g (i : Int) k).integrate arrays =
          .ok (∑ p ∈ Finset.range g.msize,
            (iterSimpleTrue g (i : Int) k).weights.getD p 0 *
              g.aim_weights.getD p 0 *
              (arrays.map (fun a => a.vals.getD p 0)).prod,
            iterSimpleTrue g (i : Int) k)) := by
  have htakelen : (g.weights.take s).length = s := by
    rw [List.length_take]
    omega
  have hziplen : ∀ m : Nat,
      (List.zipWith (fun w a => w * a ^ m) (pySlice g.weights s f)
        (pySlice g.aim_weights s f)).length = f - s := by
    intro m
    rw [List.length_zipWith, pySlice_length, pySlice_length, haL]
    omega
  intro k
  obtain ⟨hpk, hak, hck, hxk, hmk, hwk⟩ :=
    iterSimpleTrue_invariant g i s f hi1 hi2 hic hs hf hsf hfL haL k
  have hwlen : (iterSimpleTrue g (i : Int) k).weights.length =
      g.weights.length := by
    rw [hwk, List.length_append, List.length_append, htakelen, hziplen k,
      List.length_drop]
    omega
  refine ⟨hwk, ?_, ?_⟩
  · have hi1k : i < (iterSimpleTrue g (i : Int) k).indices.length := by
      rw [hxk]; exact hi1
    have hi2k : i + 1 < (iterSimpleTrue g (i : Int) k).indices.length := by
      rw [hxk]; exact hi2
    have hick : i < (iterSimpleTrue g (i : Int) k).coors.length := by
      rw [hck]; exact hic
    have hstep := get_simple_true_spec2 (iterSimpleTrue g (i : Int) k) i s f
      hi1k hi2k hick (by rw [hxk]; exact hs) (by rw [hxk]; exact hf)
    have e : iterSimpleTrue g (i : Int) (k + 1) =
        ⟨(iterSimpleTrue g (i : Int) k).points,
          writeSlice (iterSimpleTrue g (i : Int) k).weights s
            (List.zipWith (fun w aw => w * aw)
              (pySlice (iterSimpleTrue g (i : Int) k).weights s f)
              (pySlice (iterSimpleTrue g (i : Int) k).aim_weights s f)),
          (iterSimpleTrue g (i : Int) k).aim_weights,
          (iterSimpleTrue g (i : Int) k).coors,
          (iterSimpleTrue g (i : Int) k).indices,
          (iterSimpleTrue g (i : Int) k).msize,
          (iterSimpleTrue g (i : Int) k).atomic_grids⟩ := by
      show (match (iterSimpleTrue g (i : Int) k).get_simple_atomic_grid
          (i : Int) true with
        | .ok (_, g2) => g2
        | .error _ => iterSimpleTrue g (i : Int) k) = _
      rw [hstep]
    refine ⟨⟨pySlice (iterSimpleTrue g (i : Int) k).points s f,
      List.zipWith (fun w aw => w * aw)
        (pySlice (iterSimpleTrue g (i : Int) k).weights s f)
        (pySlice (iterSimpleTrue g (i : Int) k).aim_weights s f),
      (iterSimpleTrue g (i : Int) k).coors.get ⟨i, hick⟩⟩, ?_, ?_⟩
    · rw [e]
      exact hstep
    · show List.zipWith (fun w aw => w * aw)
        (pySlice (iterSimpleTrue g (i : Int) k).weights s f)
        (pySlice (iterSimpleTrue g (i : Int) k).aim_weights s f) = _
      rw [hak, hwk,
        pySlice_concat (g.weights.take s) _ (g.weights.drop f) s f htakelen
          (hziplen k),
        zipWith_mul_pow k]
  · intro arrays hne hgood
    have hw : (iterSimpleTrue g (i : Int) k).weights.length =
        (iterSimpleTrue g (i : Int) k).msize := by
      rw [hwlen, hmk, hwm]
    have ha : (iterSimpleTrue g (i : Int) k).aim_weights.length =
        (iterSimpleTrue g (i : Int) k).msize := by
      rw [hak, haL, hmk, hwm]
    have hgood2 : ∀ a ∈ arrays, ∃ xs, a = .arr xs ∧
        xs.length = (iterSimpleTrue g (i : Int) k).msize := by
      intro a haa
      obtain ⟨xs, h1, h2⟩ := hgood a haa
      exact ⟨xs, h1, by rw [hmk]; exact h2⟩
    have := integrate_ok_spec (iterSimpleTrue g (i : Int) k) arrays hw ha
      hne hgood2
    rw [hmk, hak] at this
    exact this

theorem simple_grid_aliasing_writeback_witness :
    (iterSimpleTrue mg2 ((0 : Nat) : Int) 2).weights =
      mg2.weights.take 0 ++
        (List.zipWith (fun w a => w * a ^ 2) (pySlice mg2.weights 0 1)
          (pySlice mg2.aim_weights 0 1) ++ mg2.weights.drop 1) ∧
    (∃ sg : SimpleAtomicGrid,
      (iterSimpleTrue mg2 ((0 : Nat) : Int) 2).get_simple_atomic_grid
          ((0 : Nat) : Int) true =
        .ok (sg, iterSimpleTrue mg2 ((0 : Nat) : Int) 3) ∧
      sg.weights = List.zipWith (fun w a => w * a ^ 3)
        (pySlice mg2.weights 0 1) (pySlice mg2.aim_weights 0 1)) ∧
    (∀ arrays : List PyValue, arrays ≠ [] →
      (∀ a ∈ arrays, ∃ xs, a = .arr xs ∧ xs.length = mg2.msize) →
      (iterSimpleTrue mg2 ((0 : Nat) : Int) 2).integrate arrays =
        .ok (∑ p ∈ Finset.range mg2.msize,
          (iterSimpleTrue mg2 ((0 : Nat) : Int) 2).weights.getD p 0 *
            mg2.aim_weights.getD p 0 *
            (arrays.map (fun a => a.vals.getD p 0)).prod,
          iterSimpleTrue mg2 ((0 : Nat) : Int) 2)) :=
  simple_grid_aliasing_writeback mg2 0 0 1 (by decide) (by decide) (by decide)
    (by decide) (by decide) (by decide) (by decide) (by decide) (by decide) 2

/-- Retaining (`store=True`) twin of `mg2`. -/
def mg2s : MolGrid :=
  ⟨[(0,0,0), (1,0,0)], [1, 2], [1/2, 1/3], [(0,0,0), (1,0,0)], [0, 1, 2], 2,
    some [exG1, exG2]⟩

theorem getitem_store_equiv_witness :
    mg2s.aim_weights = mg2.aim_weights ∧
    ∃ a sg, mg2s.getitem ((0 : Nat) : Int) = .ok (.stored a, mg2s) ∧
      mg2.getitem ((0 : Nat) : Int) = .ok (.synth sg, mg2) ∧
      sg.points = a.points ∧ sg.center = a.center ∧
      sg.weights = List.zipWith (fun w aw => w * aw) a.weights
        (pySlice mg2.aim_weights (mg2.indices.getD 0 0)
          (mg2.indices.getD (0 + 1) 0)) :=
  getitem_store_equiv exDist exTbl [exG1, exG2] [1, 1] (.arr [1/2, 1/3])
    mg2s mg2 (by decide) (by decide) (by with_unfolding_all decide)
    (by with_unfolding_all decide) 0 (by decide)
